import Mathlib

/-!
Shallow embedding of `src/agent_skill/display.py` (terminal UI layer of the
agent-skill CLI), together with theorems about its key decoder, formatting
helpers and interactive event loops.

Modelling conventions:
* Python `int` is `Int`; Python `%` on a positive divisor agrees with
  `Int.emod` (both return a value in `[0, divisor)`), so `%` on `Int` is a
  faithful translation of the index arithmetic.
* Python `str` is `String`; Python indexes strings by code point, as Lean
  `String.take`/`length` do.
* Python `float` rating values are modelled as `ℚ` (the literals involved,
  3.7 and 0.5, are not at a representation boundary).
* Each interactive loop reads keys one at a time; we model the stream of
  decoded key events as a list, and a run of the loop as structural
  recursion over that list.  An exception raised inside the loop body is
  modelled as a dedicated event, since the Python code catches every
  exception at the loop boundary.  A run that exhausts the list without
  returning is `none` (the real loop would block on the next read).
-/

/-- Python list indexing `xs[i]` on an `Int` index: non-negative indices from
the front, negative indices from the back, `none` for an `IndexError`. -/
def pyIndex {α : Type} (xs : List α) (i : Int) : Option α :=
  if 0 ≤ i then xs[i.toNat]?
  else if -(xs.length : Int) ≤ i then xs[((xs.length : Int) + i).toNat]?
  else none

/-- Python slicing `text[:stop]` on an `Int` bound: a negative bound counts
from the end of the string (clamped at 0). -/
def pySliceTo (text : String) (stop : Int) : String :=
  if 0 ≤ stop then text.take stop.toNat
  else text.take (text.length - stop.natAbs)

/-- Python `int(q)`: truncation toward zero. -/
def pyTrunc (q : ℚ) : Int :=
  if 0 ≤ q then ⌊q⌋ else ⌈q⌉

/-- Python `s * n` for a string and an integer count (empty for `n ≤ 0`). -/
def strRepeat (s : String) (n : Int) : String :=
  String.join (List.replicate n.toNat s)

/-- `rating_stars` from display.py:

```python
def rating_stars(rating: float, max_stars: int = 5) -> str:
    full_stars = int(rating)
    half_star = rating - full_stars >= 0.5
    empty_stars = max_stars - full_stars - (1 if half_star else 0)
    return "★" * full_stars + ("½" if half_star else "") + "☆" * empty_stars
```
-/
def rating_stars (rating : ℚ) (max_stars : Int) : String :=
  let full_stars := pyTrunc rating
  let half_star : Bool := (1 : ℚ) / 2 ≤ rating - (full_stars : ℚ)
  let empty_stars := max_stars - full_stars - (if half_star then 1 else 0)
  strRepeat "★" full_stars ++ (if half_star then "½" else "") ++ strRepeat "☆" empty_stars

/-- `truncate` from display.py:

```python
def truncate(text: str, max_length: int = 50) -> str:
    if not text:
        return ""
    if len(text) <= max_length:
        return text
    return text[:max_length - 3] + "..."
```
-/
def truncate (text : String) (max_length : Int) : String :=
  if text = "" then ""
  else if (text.length : Int) ≤ max_length then text
  else pySliceTo text (max_length - 3) ++ "..."

/-- The Unix (`else`) branch of `_read_key`: decode one key event from the
stream of characters delivered by `sys.stdin.read(1)` in raw mode.  `none`
models a read that blocks forever because the stream is exhausted. -/
def unixReadKey : List Char → Option String
  | [] => none
  | c :: rest =>
    if c = '\x1b' then
      match rest with
      | [] => none
      | c2 :: rest2 =>
        if c2 = '[' then
          match rest2 with
          | [] => none
          | c3 :: _ =>
            if c3 = 'A' then some "up"
            else if c3 = 'B' then some "down"
            else if c3 = 'C' then some "right"
            else if c3 = 'D' then some "left"
            else some "escape"
        else some "escape"
    else if c = '\r' then some "enter"
    else if c = '\n' then some "enter"
    else if c = 'q' then some "q"
    else if c = 'Q' then some "q"
    else if c = '\x03' then some "ctrl+c"
    else some (String.mk [c])

/-- `bytes.decode("utf-8", errors="ignore")` for the single byte that reaches
the fall-through `return` of the Windows branch: an ASCII byte decodes to its
character, any other lone byte is invalid UTF-8 and is ignored. -/
def decodeByte (b : Nat) : String :=
  if b < 128 then String.mk [Char.ofNat b] else ""

/-- The Windows (`sys.platform == 'win32'`) branch of `_read_key`: decode one
key event from the stream of bytes delivered by `msvcrt.getch()`.  After the
`b'\xe0'` prefix, an unrecognized second byte falls through to the final
`return key.decode(...)` with `key` rebound to that second byte. -/
def winReadKey : List Nat → Option String
  | [] => none
  | b :: rest =>
    if b = 0xe0 then
      match rest with
      | [] => none
      | b2 :: _ =>
        if b2 = 72 then some "up"
        else if b2 = 80 then some "down"
        else if b2 = 75 then some "left"
        else if b2 = 77 then some "right"
        else some (decodeByte b2)
    else if b = 13 then some "enter"
    else if b = 113 then some "q"
    else if b = 81 then some "q"
    else some (decodeByte b)

/-- Cursor move on an `up` key in both interactive loops:
`selected_index = (selected_index - 1) % len(items)`. -/
def moveUp (i : Int) (n : Nat) : Int :=
  (i - 1) % (n : Int)

/-- Cursor move on a `down` key in both interactive loops:
`selected_index = (selected_index + 1) % len(items)`. -/
def moveDown (i : Int) (n : Nat) : Int :=
  (i + 1) % (n : Int)

/-- Entry into the interactive part of `display_search_results`:
`selected_index = min(initial_index, len(skills) - 1)`. -/
def clampInitial (initial : Int) (n : Nat) : Int :=
  min initial ((n : Int) - 1)

/-- One run of the interactive loop of `display_search_results`, over the list
of decoded key events.  The result is `(selected skill or none, index)`;
a `ZeroDivisionError`/`IndexError` inside the `try` is caught by the
`except` branch, which returns `(None, 0)`. -/
def searchLoop {α : Type} (skills : List α) (i : Int) : List String → Option (Option α × Int)
  | [] => none
  | k :: ks =>
    if k = "up" then
      if skills.length = 0 then some (none, 0)
      else searchLoop skills (moveUp i skills.length) ks
    else if k = "down" then
      if skills.length = 0 then some (none, 0)
      else searchLoop skills (moveDown i skills.length) ks
    else if k = "enter" then
      match pyIndex skills i with
      | some s => some (some s, i)
      | none => some (none, 0)
    else if k = "q" ∨ k = "escape" ∨ k = "ctrl+c" then some (none, i)
    else searchLoop skills i ks

/-- An agent record, as consumed by `display_agent_selection`
(`dict` with `id`, `name`, `path` keys). -/
structure Agent where
  id : String
  name : String
  path : String
deriving DecidableEq, Repr

/-- The ids of the agents shown on the agent-selection screen. -/
def agentIds (agents : List Agent) : Finset String :=
  (agents.map Agent.id).toFinset

/-- Initial selection set of `display_agent_selection`:
`selected_ids = [a['id'] for a in agents]` when the caller passes `None`,
then `selected = set(selected_ids)`. -/
def initSelected (agents : List Agent) : Option (List String) → Finset String
  | none => (agents.map Agent.id).toFinset
  | some ids => ids.toFinset

/-- One event inside the agent-selection loop: either a decoded key, or an
exception raised by the loop body (read failure, render failure, ...),
which the Python code catches at the `try`/`except` boundary. -/
inductive AgentEvent where
  | key (k : String)
  | exc
deriving DecidableEq, Repr

/-- Result of a run of the agent-selection loop: the set of ids the function
returns (`list(selected)` is returned as a set of ids, order irrelevant),
and whether the run went through the `except` branch (one static render of
the current state). -/
structure AgentRunResult where
  result : Finset String
  viaFallback : Bool
deriving DecidableEq

/-- One run of the interactive loop of `display_agent_selection`, over the
list of events.  `up`/`down` move the cursor modulo the agent count
(`% 0` raises, caught by `except`); space toggles the id under the cursor;
`enter` confirms unless the selection is empty; `q`/`escape`/`ctrl+c`
cancels returning the empty set; an exception falls back to one static
render and returns the current selection. -/
def agentLoop (agents : List Agent) (cursor : Int) (selected : Finset String) :
    List AgentEvent → Option AgentRunResult
  | [] => none
  | AgentEvent.exc :: _ => some ⟨selected, true⟩
  | AgentEvent.key k :: evs =>
    if k = "up" then
      if agents.length = 0 then some ⟨selected, true⟩
      else agentLoop agents (moveUp cursor agents.length) selected evs
    else if k = "down" then
      if agents.length = 0 then some ⟨selected, true⟩
      else agentLoop agents (moveDown cursor agents.length) selected evs
    else if k = " " then
      match pyIndex agents cursor with
      | some a =>
        let selected' := if a.id ∈ selected then selected.erase a.id else insert a.id selected
        agentLoop agents cursor selected' evs
      | none => some ⟨selected, true⟩
    else if k = "enter" then
      if selected = ∅ then agentLoop agents cursor selected evs
      else some ⟨selected, false⟩
    else if k = "q" ∨ k = "escape" ∨ k = "ctrl+c" then some ⟨∅, false⟩
    else agentLoop agents cursor selected evs

/-! ### Helper lemmas (shared) -/

theorem moveUp_nonneg (i : Int) (n : Nat) (h : 0 < n) : 0 ≤ moveUp i n :=
  Int.emod_nonneg _ ((by exact_mod_cast h : (0 : Int) < n).ne')

theorem moveUp_lt (i : Int) (n : Nat) (h : 0 < n) : moveUp i n < n :=
  Int.emod_lt_of_pos _ (by exact_mod_cast h)

theorem moveDown_nonneg (i : Int) (n : Nat) (h : 0 < n) : 0 ≤ moveDown i n :=
  Int.emod_nonneg _ ((by exact_mod_cast h : (0 : Int) < n).ne')

theorem moveDown_lt (i : Int) (n : Nat) (h : 0 < n) : moveDown i n < n :=
  Int.emod_lt_of_pos _ (by exact_mod_cast h)

theorem moveUp_zero (n : Nat) (h : 0 < n) : moveUp 0 n = (n : Int) - 1 := by
  have hn : (0 : Int) < n := by exact_mod_cast h
  unfold moveUp
  calc ((0 : Int) - 1) % n = (-1 + (n : Int) * 1) % n := by
        rw [@Int.add_mul_emod_self_left (-1) (n : Int) 1]
        norm_num
    _ = ((n : Int) - 1) % n := by ring_nf
    _ = (n : Int) - 1 := Int.emod_eq_of_lt (by omega) (by omega)

theorem moveDown_last (n : Nat) : moveDown ((n : Int) - 1) n = 0 := by
  unfold moveDown
  have he : ((n : Int) - 1 + 1) = (n : Int) := by ring
  rw [he, Int.emod_self]

theorem string_length_take (s : String) (n : Nat) : (s.take n).length = min n s.length := by
  have h2 : (s.take n).length = (s.take n).1.length := rfl
  rw [h2, String.data_take s n, List.length_take]
  rfl

theorem pyIndex_mem {α : Type} (xs : List α) (i : Int) (a : α)
    (h : pyIndex xs i = some a) : a ∈ xs := by
  unfold pyIndex at h
  split_ifs at h
  · exact List.getElem?_mem h
  · exact List.getElem?_mem h

/-! ### Claim theorems -/

/-- Claim C7: on a navigable list of length N > 0 (search results or agents),
an `up` key moves the cursor to (i − 1) mod N and a `down` key to
(i + 1) mod N, so the cursor stays in [0, N); `up` at index 0 yields N − 1
and `down` at index N − 1 yields 0. -/
theorem move_wraps (n : Nat) (i : Int) (h : 0 < n) :
    moveUp i n = (i - 1) % (n : Int) ∧ moveDown i n = (i + 1) % (n : Int) ∧
    (0 ≤ moveUp i n ∧ moveUp i n < n) ∧ (0 ≤ moveDown i n ∧ moveDown i n < n) ∧
    moveUp 0 n = (n : Int) - 1 ∧ moveDown ((n : Int) - 1) n = 0 :=
  ⟨rfl, rfl, ⟨moveUp_nonneg i n h, moveUp_lt i n h⟩,
    ⟨moveDown_nonneg i n h, moveDown_lt i n h⟩, moveUp_zero n h, moveDown_last n⟩

/-- Witness for C7 at N = 3, i = 0. -/
theorem move_wraps_witness :
    (0 ≤ moveUp 0 3 ∧ moveUp 0 3 < 3) ∧ moveUp 0 3 = ((3 : Nat) : Int) - 1 :=
  ⟨(move_wraps 3 0 (by decide)).2.2.1, (move_wraps 3 0 (by decide)).2.2.2.2.1⟩

/-- Claim C8: `rating_stars 3.7` returns a 5-glyph string of exactly 3 full
stars, then one half star, then 1 empty star. -/
theorem rating_stars_three_point_seven :
    rating_stars (37 / 10) 5 = "★★★" ++ "½" ++ "☆" ∧
    (rating_stars (37 / 10) 5).length = 5 := by
  have htr : pyTrunc (37 / 10) = 3 := by
    unfold pyTrunc
    rw [if_pos (by norm_num : (0 : ℚ) ≤ 37 / 10)]
    rw [Int.floor_eq_iff]
    constructor <;> norm_num
  have hmain : rating_stars (37 / 10) 5 = "★★★" ++ "½" ++ "☆" := by
    unfold rating_stars
    rw [htr]
    have hb : (decide ((1 : ℚ) / 2 ≤ 37 / 10 - ((3 : Int) : ℚ))) = true := by
      rw [decide_eq_true_eq]
      norm_num
    simp only [hb]
    rfl
  refine ⟨hmain, ?_⟩
  rw [hmain]
  rfl

/-- Claim C9: `truncate "hello world" 8` has length exactly 8 and ends in
`...`, and `truncate "hi" 8` is `"hi"` unchanged. -/
theorem truncate_hello_world :
    truncate "hello world" 8 = "hello..." ∧
    (truncate "hello world" 8).length = 8 ∧
    (truncate "hello world" 8).takeRight 3 = "..." ∧
    truncate "hi" 8 = "hi" := by
  refine ⟨by decide, by decide, by decide, by decide⟩

/-- Claim C10: for every string and every max_length ≥ 3, the result of
`truncate` has length at most max_length; the bound genuinely needs the
hypothesis (for max_length < 3 it can fail). -/
theorem truncate_length_le :
    (∀ (text : String) (ml : Int), 3 ≤ ml → ((truncate text ml).length : Int) ≤ ml) ∧
    ¬ (∀ (text : String) (ml : Int), ((truncate text ml).length : Int) ≤ ml) := by
  constructor
  · intro text ml h3
    unfold truncate
    split_ifs with h1 h2
    · have h0 : (("" : String).length : Int) = 0 := by rfl
      omega
    · exact h2
    · push_neg at h2
      unfold pySliceTo
      rw [if_pos (by omega : (0 : Int) ≤ ml - 3)]
      rw [String.length_append, string_length_take]
      have hdots : ("..." : String).length = 3 := by rfl
      rw [hdots]
      have hmin : min (ml - 3).toNat text.length = (ml - 3).toNat :=
        Nat.min_eq_left (by omega)
      rw [hmin]
      push_cast
      omega
  · intro hall
    exact absurd (hall "hello" 2) (by decide)

/-- Witness for C10 at text = "hello world", max_length = 8. -/
theorem truncate_length_le_witness :
    ((truncate "hello world" 8).length : Int) ≤ 8 :=
  truncate_length_le.1 "hello world" 8 (by norm_num)

/-- Claim C3 counterexample: on the Windows branch of `_read_key`, the
newline byte 0x0A is not classified as `enter`; it falls through to the
literal-character return. -/
theorem win_newline_counterexample :
    winReadKey [10] = some "\n" ∧ winReadKey [10] ≠ some "enter" :=
  ⟨by decide, by decide⟩

/-- Claim C3 (amended): the key decoder classifies the carriage-return
terminator as `enter` on both platform branches; the newline terminator is
classified as `enter` on the Unix branch, while the Windows branch returns
it as the literal newline character. -/
theorem read_key_enter_terminators :
    (∀ rest, unixReadKey ('\r' :: rest) = some "enter") ∧
    (∀ rest, unixReadKey ('\n' :: rest) = some "enter") ∧
    (∀ rest, winReadKey (13 :: rest) = some "enter") ∧
    (∀ rest, winReadKey (10 :: rest) = some "\n") :=
  ⟨fun _ => rfl, fun _ => rfl, fun _ => rfl, fun _ => rfl⟩

theorem searchLoop_result_in_range {α : Type} (skills : List α) (hne : skills ≠ []) :
    ∀ (evs : List String) (i : Int) (r : Option α × Int),
      0 ≤ i → i < skills.length → searchLoop skills i evs = some r →
      0 ≤ r.2 ∧ r.2 < skills.length := by
  have hpos : 0 < skills.length := List.length_pos.mpr hne
  intro evs
  induction evs with
  | nil =>
    intro i r h0 h1 hrun
    simp [searchLoop] at hrun
  | cons k ks ih =>
    intro i r h0 h1 hrun
    simp only [searchLoop] at hrun
    split_ifs at hrun with hk1 hz1 hk2 hz2 hk3 hk4
    · exact absurd hpos (by omega)
    · exact ih (moveUp i skills.length) r (moveUp_nonneg i _ hpos) (moveUp_lt i _ hpos) hrun
    · exact absurd hpos (by omega)
    · exact ih (moveDown i skills.length) r (moveDown_nonneg i _ hpos) (moveDown_lt i _ hpos) hrun
    · split at hrun
      · injection hrun with h
        subst h
        exact ⟨h0, h1⟩
      · injection hrun with h
        subst h
        refine ⟨le_refl 0, by show (0 : Int) < skills.length; exact_mod_cast hpos⟩
    · injection hrun with h
      subst h
      exact ⟨h0, h1⟩
    · exact ih i r h0 h1 hrun

/-- Claim C1 counterexample: with the caller-supplied initial index −1 and a
two-element list, the entry clamp `min(initial_index, len(skills) - 1)` of
`display_search_results` leaves the cursor at −1, which is not in [0, N):
the clamp only caps indices that exceed the list bound from above. -/
theorem search_clamp_negative_counterexample :
    clampInitial (-1) 2 = -1 ∧ ¬ (0 ≤ clampInitial (-1) 2) := by decide

/-- Claim C1 (amended): for every non-empty skill list and every caller-supplied
initial index that is non-negative, the entry clamp of
`display_search_results` puts the cursor in [0, N), and every run of the
interactive loop started from the clamped cursor only exits with an index in
[0, N) — each up/down move keeps the cursor in range by modulo arithmetic.
(The non-negativity hypothesis is forced by the counterexample: the clamp
does not raise a negative starting index.) -/
theorem search_cursor_in_range {α : Type} (skills : List α) (initial : Int)
    (hne : skills ≠ []) (h0 : 0 ≤ initial) :
    (0 ≤ clampInitial initial skills.length ∧
      clampInitial initial skills.length < skills.length) ∧
    ∀ (evs : List String) (r : Option α × Int),
      searchLoop skills (clampInitial initial skills.length) evs = some r →
      0 ≤ r.2 ∧ r.2 < skills.length := by
  have hpos : 0 < skills.length := List.length_pos.mpr hne
  have hclamp : 0 ≤ clampInitial initial skills.length ∧
      clampInitial initial skills.length < skills.length := by
    unfold clampInitial
    constructor
    · exact le_min h0 (by omega)
    · have hm : min initial ((skills.length : Int) - 1) ≤ (skills.length : Int) - 1 :=
        min_le_right _ _
      omega
  exact ⟨hclamp, fun evs r h =>
    searchLoop_result_in_range skills hne evs _ r hclamp.1 hclamp.2 h⟩

/-- Witness for C1 at skills = ["a", "b"], initial index 5 (above the bound,
clamped to 1). -/
theorem search_cursor_in_range_witness :
    0 ≤ clampInitial 5 (["a", "b"].length) ∧
    clampInitial 5 (["a", "b"].length) < (["a", "b"].length) :=
  (search_cursor_in_range ["a", "b"] 5 (by decide) (by decide)).1

theorem id_mem_agentIds (agents : List Agent) (a : Agent) (ha : a ∈ agents) :
    a.id ∈ agentIds agents :=
  List.mem_toFinset.mpr (List.mem_map_of_mem Agent.id ha)

theorem agentLoop_subset (agents : List Agent) :
    ∀ (evs : List AgentEvent) (cursor : Int) (selected : Finset String) (r : AgentRunResult),
      selected ⊆ agentIds agents → agentLoop agents cursor selected evs = some r →
      r.result ⊆ agentIds agents := by
  intro evs
  induction evs with
  | nil =>
    intro cursor selected r hsub hrun
    simp [agentLoop] at hrun
  | cons e es ih =>
    intro cursor selected r hsub hrun
    cases e with
    | exc =>
      simp only [agentLoop] at hrun
      injection hrun with h
      subst h
      exact hsub
    | key k =>
      simp only [agentLoop] at hrun
      split_ifs at hrun with hk1 hz1 hk2 hz2 hk3 hk4 hemp hk5
      · injection hrun with h
        subst h
        exact hsub
      · exact ih (moveUp cursor agents.length) selected r hsub hrun
      · injection hrun with h
        subst h
        exact hsub
      · exact ih (moveDown cursor agents.length) selected r hsub hrun
      · split at hrun
        case _ a heq =>
          refine ih cursor _ r ?_ hrun
          by_cases hmem : a.id ∈ selected
          · simp only [hmem, if_pos]
            exact fun x hx => hsub (Finset.mem_of_mem_erase hx)
          · simp only [hmem, if_neg, not_false_iff]
            refine Finset.insert_subset_iff.mpr ⟨?_, hsub⟩
            exact id_mem_agentIds agents a (pyIndex_mem agents cursor a heq)
        case _ heq =>
          injection hrun with h
          subst h
          exact hsub
      · exact ih cursor selected r hsub hrun
      · injection hrun with h
        subst h
        exact hsub
      · injection hrun with h
        subst h
        exact Finset.empty_subset _
      · exact ih cursor selected r hsub hrun

/-- Claim C2 counterexample: `display_agent_selection` builds
`selected = set(selected_ids)` without filtering against the agents shown,
so a caller-supplied foreign id already violates the subset property at
initial construction. -/
theorem agent_initial_subset_counterexample :
    ¬ (initSelected [⟨"a", "Agent A", "/a"⟩] (some ["b"]) ⊆
        agentIds [⟨"a", "Agent A", "/a"⟩]) := by
  decide

/-- Claim C2 (amended): the default initial selection (caller passes `None`)
is exactly the set of shown agent ids; a caller-supplied initial selection
is a subset of the shown ids whenever each supplied id belongs to an agent
shown; and from any subset state, every operation of the loop (each space
toggle, and the value returned on exit) keeps the selection a subset of the
shown agent ids.  (Initial construction from arbitrary caller-supplied ids
is excluded by the counterexample: the code does not filter them.) -/
theorem agent_selected_subset :
    (∀ agents : List Agent, initSelected agents none = agentIds agents) ∧
    (∀ (agents : List Agent) (ids : List String),
      (∀ x ∈ ids, x ∈ agentIds agents) →
      initSelected agents (some ids) ⊆ agentIds agents) ∧
    (∀ (agents : List Agent) (evs : List AgentEvent) (cursor : Int)
      (selected : Finset String) (r : AgentRunResult),
      selected ⊆ agentIds agents → agentLoop agents cursor selected evs = some r →
      r.result ⊆ agentIds agents) := by
  refine ⟨fun agents => rfl, fun agents ids h x hx => ?_, ?_⟩
  · exact h x (List.mem_toFinset.mp hx)
  · intro agents evs cursor selected r hsub hrun
    exact agentLoop_subset agents evs cursor selected r hsub hrun

/-- Witness for C2: a run over one agent with the matching selection,
confirmed with enter. -/
theorem agent_selected_subset_witness :
    (AgentRunResult.mk {"a"} false).result ⊆ agentIds [⟨"a", "Agent A", "/a"⟩] :=
  agent_selected_subset.2.2 [⟨"a", "Agent A", "/a"⟩] [AgentEvent.key "enter"] 0 {"a"}
    ⟨{"a"}, false⟩ (by decide) (by decide)

/-- Claim C4: in the agent-selection loop, `enter` with an empty selection
set does not exit (the loop continues in the same state), while `enter`
with a non-empty selection exits and the function returns exactly the
current selection set. -/
theorem agent_enter_confirm (agents : List Agent) (cursor : Int)
    (selected : Finset String) (evs : List AgentEvent) :
    (selected = ∅ →
      agentLoop agents cursor selected (AgentEvent.key "enter" :: evs) =
        agentLoop agents cursor selected evs) ∧
    (selected ≠ ∅ →
      agentLoop agents cursor selected (AgentEvent.key "enter" :: evs) =
        some ⟨selected, false⟩) := by
  have h1 : ¬("enter" = "up") := by decide
  have h2 : ¬("enter" = "down") := by decide
  have h3 : ¬("enter" = " ") := by decide
  constructor <;> intro h
  · simp only [agentLoop]
    rw [if_neg h1, if_neg h2, if_neg h3, if_pos trivial, if_pos h]
  · simp only [agentLoop]
    rw [if_neg h1, if_neg h2, if_neg h3, if_pos trivial, if_neg h]

/-- Witness for C4: one selected id, enter confirms and returns it. -/
theorem agent_enter_confirm_witness :
    agentLoop [] 0 {"x"} [AgentEvent.key "enter"] = some ⟨{"x"}, false⟩ :=
  (agent_enter_confirm [] 0 {"x"} []).2 (by decide)

/-- Claim C5: a cancel key (`q`, `escape` or `ctrl+c`) in the agent-selection
loop makes `display_agent_selection` return the empty set, for every agents
list, cursor and prior selection state. -/
theorem agent_cancel_returns_empty (agents : List Agent) (cursor : Int)
    (selected : Finset String) (evs : List AgentEvent) (k : String)
    (hk : k = "q" ∨ k = "escape" ∨ k = "ctrl+c") :
    agentLoop agents cursor selected (AgentEvent.key k :: evs) =
      some ⟨∅, false⟩ := by
  rcases hk with rfl | rfl | rfl
  · simp only [agentLoop]
    rw [if_neg (show ¬("q" = "up") by decide), if_neg (show ¬("q" = "down") by decide),
      if_neg (show ¬("q" = " ") by decide), if_neg (show ¬("q" = "enter") by decide)]
    simp
  · simp only [agentLoop]
    rw [if_neg (show ¬("escape" = "up") by decide),
      if_neg (show ¬("escape" = "down") by decide),
      if_neg (show ¬("escape" = " ") by decide),
      if_neg (show ¬("escape" = "enter") by decide)]
    simp
  · simp only [agentLoop]
    rw [if_neg (show ¬("ctrl+c" = "up") by decide),
      if_neg (show ¬("ctrl+c" = "down") by decide),
      if_neg (show ¬("ctrl+c" = " ") by decide),
      if_neg (show ¬("ctrl+c" = "enter") by decide)]
    simp

/-- Witness for C5: pressing q with a non-empty prior selection returns the
empty set. -/
theorem agent_cancel_returns_empty_witness :
    agentLoop [] 0 {"x"} [AgentEvent.key "q"] = some ⟨∅, false⟩ :=
  agent_cancel_returns_empty [] 0 {"x"} [] "q" (Or.inl rfl)

/-- Claim C6: an exception raised inside the agent-selection loop leads to the
fallback path (one static render of the current state) and the function
returns the selection set exactly as it stood at that moment — possibly
non-empty — rather than the empty set used for deliberate cancellation. -/
theorem agent_exception_returns_current (agents : List Agent) (cursor : Int)
    (selected : Finset String) (evs : List AgentEvent) :
    agentLoop agents cursor selected (AgentEvent.exc :: evs) =
      some ⟨selected, true⟩ := rfl
